import Mathlib

/-!
Verification development for the obsdb observation cache and query engine.

The C sources are shallowly embedded as Lean definitions:

- `time_t` values are modelled as `Int` (seconds since the Unix epoch);
- IEEE doubles carrying data values are modelled as `ℚ`; the NaN sentinel
  used by the code for absent values is modelled as `Option ℚ` with `none`
  standing for NaN;
- the SQLite row scans (`ORDER BY valid_time ASC`) are modelled as lists
  handed to the functions, with sortedness stated as a hypothesis where a
  theorem needs it;
- out-parameter contracts (`**results`, `*num_results`) are modelled as a
  result record whose `results` field is an `Option` (`none` standing for a
  null pointer).
-/

/-- Model of `struct ObsTimeRange` from obs.h: a pair of epoch seconds.
The C field `end` is a Lean keyword and is rendered here as `stop`.
Range semantics in the spec are inclusive on both endpoints. -/
structure ObsTimeRange where
  start : Int
  stop : Int
deriving DecidableEq, Repr

/-- Membership of an epoch second in an `ObsTimeRange`, with the inclusive
endpoint semantics stated in the data-model section of the spec. -/
def ObsTimeRange.containsTime (tr : ObsTimeRange) (t : Int) : Prop :=
  tr.start ≤ t ∧ t ≤ tr.stop

instance (tr : ObsTimeRange) (t : Int) : Decidable (tr.containsTime t) := by
  unfold ObsTimeRange.containsTime; infer_instance

/-!
## Inventory analyzer (obs_db_have_inventory, obs_db.c lines 206-302)

The scan result (`SELECT valid_time ... ORDER BY valid_time ASC`) is the
`rows : List Int` argument.  `obs_db_have_inventory_step_row` returning
`SQLITE_DONE` (which zeroes `t1`) corresponds to the end of the list; a row
whose stored `valid_time` is zero also terminates the walk, exactly as the
`t1 == 0` test in the C loop does.
-/

/-- The trailing-gap check after the scan loop of `obs_db_have_inventory`
(obs_db.c lines 273-277): append a gap `(t1, tr.end)` when the last row seen
is more than 4000 seconds before the end of the request. -/
def obs_db_have_inventory_trail (tr : ObsTimeRange) (acc : List ObsTimeRange)
    (t1 : Int) : List ObsTimeRange :=
  if t1 < tr.stop ∧ 4000 < tr.stop - t1 then acc ++ [⟨t1, tr.stop⟩] else acc

/-- The scan loop of `obs_db_have_inventory` (obs_db.c lines 252-271).
`t1` is the previously fetched row; each step fetches the next row `t`,
emits a gap when the two rows are more than 4000 seconds apart, and stops
when the 100-entry buffer is full (skipping the trailing-gap check), when a
stored `valid_time` of zero is fetched, or at the end of the scan. -/
def obs_db_have_inventory_loop (tr : ObsTimeRange) (acc : List ObsTimeRange)
    (t1 : Int) : List Int → List ObsTimeRange
  | [] => obs_db_have_inventory_trail tr acc t1
  | t :: rest =>
    if t = 0 then obs_db_have_inventory_trail tr acc t1
    else if 4000 < t - t1 then
      let acc1 := acc ++ [⟨t1, t⟩]
      if 100 ≤ acc1.length then acc1
      else obs_db_have_inventory_loop tr acc1 t rest
    else obs_db_have_inventory_loop tr acc t rest

/-- Model of `obs_db_have_inventory` (obs_db.c lines 206-302).  The first
component is the return status (1 when no gap was found, 0 otherwise, the
error return -1 is out of model), the second is the missing-range list.
An empty scan yields the whole requested range as the single gap; a first
row more than 4000 seconds after `tr.start` yields a leading gap. -/
def obs_db_have_inventory (tr : ObsTimeRange) (rows : List Int) :
    Int × List ObsTimeRange :=
  match rows with
  | [] => (0, [tr])
  | t1 :: rest =>
    let lead : List ObsTimeRange :=
      if tr.start < t1 ∧ 4000 < t1 - tr.start then [⟨tr.start, t1⟩] else []
    let gaps := obs_db_have_inventory_loop tr lead t1 rest
    (if gaps.length = 0 then 1 else 0, gaps)

/-!
Spec-side description of the gap algorithm, for the refinement comparison of
claim C2.  `obs_inventory_gaps_claim` follows the words of the claim: a
leading gap iff the first row is more than 4000 s after the start, one
interior gap per consecutive pair more than 4000 s apart, and a trailing gap
iff the end is more than 4000 s after the last row, with no cap.
-/

/-- Interior gaps as described by claim C2: one gap `(t0, t1)` for every
consecutive pair of scanned rows more than 4000 seconds apart. -/
def obs_inventory_interior_gaps (t1 : Int) : List Int → List ObsTimeRange
  | [] => []
  | t :: rest =>
    (if 4000 < t - t1 then [⟨t1, t⟩] else []) ++ obs_inventory_interior_gaps t rest

/-- The gap list exactly as claim C2 words it (no cap): leading gap iff the
first row is more than 4000 s after `tr.start`, interior gaps for wide
consecutive pairs, trailing gap iff `tr.end` is more than 4000 s after the
last row; the full range when the scan is empty. -/
def obs_inventory_gaps_claim (tr : ObsTimeRange) (rows : List Int) :
    List ObsTimeRange :=
  match rows with
  | [] => [tr]
  | t1 :: rest =>
    (if 4000 < t1 - tr.start then [⟨tr.start, t1⟩] else []) ++
      obs_inventory_interior_gaps t1 rest ++
      (if 4000 < tr.stop - rest.getLastD t1 then [⟨rest.getLastD t1, tr.stop⟩] else [])

/-- The gap list with the 100-entry cap that the code actually enforces:
once the leading plus interior gaps reach 100 entries, exactly the first 100
are returned and the trailing-gap check is skipped. -/
def obs_inventory_gaps_capped (tr : ObsTimeRange) (rows : List Int) :
    List ObsTimeRange :=
  match rows with
  | [] => [tr]
  | t1 :: rest =>
    let pre :=
      (if tr.start < t1 ∧ 4000 < t1 - tr.start then [⟨tr.start, t1⟩] else []) ++
        obs_inventory_interior_gaps t1 rest
    if 100 ≤ pre.length then pre.take 100
    else obs_db_have_inventory_trail tr pre (rest.getLastD t1)

/-- Appending one element below a chain keeps the chain, provided every
element of the chain relates to the new element. -/
theorem list_chain_append_singleton {α : Type} {R : α → α → Prop} :
    ∀ (l : List α) (a : α), List.Chain' R l → (∀ x ∈ l, R x a) →
      List.Chain' R (l ++ [a])
  | [], _, _, _ => List.chain'_singleton _
  | [x], a, _, ha => List.chain'_cons.2 ⟨ha x (by simp), List.chain'_singleton _⟩
  | x :: y :: l, a, h, ha => by
    rcases List.chain'_cons.1 h with ⟨hxy, hyl⟩
    exact List.chain'_cons.2
      ⟨hxy, list_chain_append_singleton (y :: l) a hyl (fun z hz => ha z (by simp [hz]))⟩

/-- A chain of adjacent facts can be strengthened using per-element facts. -/
theorem list_chain_of_chain_mem {α : Type} {R S : α → α → Prop} {P : α → Prop} :
    ∀ (l : List α), List.Chain' R l → (∀ x ∈ l, P x) →
      (∀ x y, P x → P y → R x y → S x y) → List.Chain' S l
  | [], _, _, _ => List.chain'_nil
  | [_], _, _, _ => List.chain'_singleton _
  | x :: y :: l, h, hp, himp => by
    rcases List.chain'_cons.1 h with ⟨hxy, hyl⟩
    exact List.chain'_cons.2
      ⟨himp x y (hp x (by simp)) (hp y (by simp)) hxy,
        list_chain_of_chain_mem (y :: l) hyl (fun z hz => hp z (by simp [hz])) himp⟩

/-- The trailing-gap check preserves the structural invariants of the
accumulated gap list: containment in the requested range, positive width,
and chaining of each gap end below the next gap start. -/
theorem obs_db_have_inventory_trail_invariant (tr : ObsTimeRange)
    (acc : List ObsTimeRange) (t1 : Int)
    (ht1 : tr.start ≤ t1)
    (hacc : ∀ g ∈ acc, tr.start ≤ g.start ∧ g.start < g.stop ∧ g.stop ≤ tr.stop)
    (hchain : List.Chain' (fun g1 g2 => g1.stop ≤ g2.start) acc)
    (hend : ∀ g ∈ acc, g.stop ≤ t1)
    (hlen : acc.length ≤ 99) :
    (∀ g ∈ obs_db_have_inventory_trail tr acc t1,
        tr.start ≤ g.start ∧ g.start < g.stop ∧ g.stop ≤ tr.stop) ∧
    List.Chain' (fun g1 g2 => g1.stop ≤ g2.start)
      (obs_db_have_inventory_trail tr acc t1) ∧
    (obs_db_have_inventory_trail tr acc t1).length ≤ 100 := by
  unfold obs_db_have_inventory_trail
  by_cases h : t1 < tr.stop ∧ 4000 < tr.stop - t1
  · rw [if_pos h]
    refine ⟨?_, ?_, ?_⟩
    · intro g hg
      rcases List.mem_append.1 hg with hg | hg
      · exact hacc g hg
      · simp at hg
        subst hg
        exact ⟨ht1, h.1, le_refl _⟩
    · exact list_chain_append_singleton acc _ hchain (fun x hx => hend x hx)
    · simp
      omega
  · rw [if_neg h]
    exact ⟨hacc, hchain, by omega⟩

/-- Invariant of the scan loop of the inventory analyzer: gaps stay inside
the requested range, have positive width, chain end-before-start, and the
output never exceeds 100 entries. -/
theorem obs_db_have_inventory_loop_invariant (tr : ObsTimeRange) :
    ∀ (rest : List Int) (acc : List ObsTimeRange) (t1 : Int),
      List.Chain' (fun a b : Int => a < b) (t1 :: rest) →
      (∀ t ∈ t1 :: rest, tr.start ≤ t ∧ t ≤ tr.stop) →
      (∀ g ∈ acc, tr.start ≤ g.start ∧ g.start < g.stop ∧ g.stop ≤ tr.stop) →
      List.Chain' (fun g1 g2 => g1.stop ≤ g2.start) acc →
      (∀ g ∈ acc, g.stop ≤ t1) →
      acc.length ≤ 99 →
      (∀ g ∈ obs_db_have_inventory_loop tr acc t1 rest,
          tr.start ≤ g.start ∧ g.start < g.stop ∧ g.stop ≤ tr.stop) ∧
      List.Chain' (fun g1 g2 => g1.stop ≤ g2.start)
        (obs_db_have_inventory_loop tr acc t1 rest) ∧
      (obs_db_have_inventory_loop tr acc t1 rest).length ≤ 100 := by
  intro rest
  induction rest with
  | nil =>
    intro acc t1 _ hrange hacc hchain hend hlen
    exact obs_db_have_inventory_trail_invariant tr acc t1 (hrange t1 (by simp)).1
      hacc hchain hend hlen
  | cons t rest ih =>
    intro acc t1 hsort hrange hacc hchain hend hlen
    have ht1t : t1 < t := (List.chain'_cons.1 hsort).1
    have hsort1 : List.Chain' (fun a b : Int => a < b) (t :: rest) :=
      (List.chain'_cons.1 hsort).2
    have hrange1 : ∀ x ∈ t :: rest, tr.start ≤ x ∧ x ≤ tr.stop := by
      intro x hx
      exact hrange x (by simp at hx ⊢; tauto)
    unfold obs_db_have_inventory_loop
    by_cases hz : t = 0
    · rw [if_pos hz]
      exact obs_db_have_inventory_trail_invariant tr acc t1 (hrange t1 (by simp)).1
        hacc hchain hend hlen
    rw [if_neg hz]
    by_cases h4 : 4000 < t - t1
    · rw [if_pos h4]
      have hacc1 : ∀ g ∈ acc ++ [(⟨t1, t⟩ : ObsTimeRange)],
          tr.start ≤ g.start ∧ g.start < g.stop ∧ g.stop ≤ tr.stop := by
        intro g hg
        rcases List.mem_append.1 hg with hg | hg
        · exact hacc g hg
        · simp at hg
          subst hg
          exact ⟨(hrange t1 (by simp)).1, ht1t, (hrange1 t (by simp)).2⟩
      have hchain1 : List.Chain' (fun g1 g2 => g1.stop ≤ g2.start)
          (acc ++ [(⟨t1, t⟩ : ObsTimeRange)]) :=
        list_chain_append_singleton acc _ hchain (fun x hx => hend x hx)
      by_cases hfull : 100 ≤ (acc ++ [(⟨t1, t⟩ : ObsTimeRange)]).length
      · rw [if_pos hfull]
        refine ⟨hacc1, hchain1, by simp; omega⟩
      · rw [if_neg hfull]
        refine ih (acc ++ [⟨t1, t⟩]) t hsort1 hrange1 hacc1 hchain1 ?_ ?_
        · intro g hg
          rcases List.mem_append.1 hg with hg | hg
          · exact le_of_lt (lt_of_le_of_lt (hend g hg) ht1t)
          · simp at hg
            subst hg
            exact le_refl _
        · simp at hfull ⊢
          omega
    · rw [if_neg h4]
      refine ih acc t hsort1 hrange1 hacc hchain ?_ hlen
      intro g hg
      exact le_of_lt (lt_of_le_of_lt (hend g hg) ht1t)

/-- Characterization of the inventory scan loop: when no stored row is the
zero sentinel, the loop returns the accumulated plus interior gaps, capped
at 100 entries (dropping the trailing check once the cap is hit), and
otherwise appends the trailing gap computed from the last row. -/
theorem obs_db_have_inventory_loop_eq (tr : ObsTimeRange) :
    ∀ (rest : List Int) (acc : List ObsTimeRange) (t1 : Int),
      (∀ t ∈ rest, t ≠ 0) → acc.length ≤ 99 →
      obs_db_have_inventory_loop tr acc t1 rest =
        (if 100 ≤ (acc ++ obs_inventory_interior_gaps t1 rest).length then
          (acc ++ obs_inventory_interior_gaps t1 rest).take 100
        else obs_db_have_inventory_trail tr (acc ++ obs_inventory_interior_gaps t1 rest)
          (rest.getLastD t1)) := by
  intro rest
  induction rest with
  | nil =>
    intro acc t1 _ hlen
    rw [obs_db_have_inventory_loop]
    rw [obs_inventory_interior_gaps]
    rw [List.append_nil, if_neg (by omega : ¬ 100 ≤ acc.length)]
    rfl
  | cons t rest ih =>
    intro acc t1 hz hlen
    have ht : ¬ t = 0 := hz t (by simp)
    have hz1 : ∀ x ∈ rest, x ≠ 0 := fun x hx => hz x (by simp [hx])
    rw [obs_db_have_inventory_loop, if_neg ht]
    rw [obs_inventory_interior_gaps]
    rw [List.getLastD_cons]
    by_cases h4 : 4000 < t - t1
    · rw [if_pos h4, if_pos h4]
      by_cases hfull : 100 ≤ (acc ++ [(⟨t1, t⟩ : ObsTimeRange)]).length
      · rw [if_pos hfull]
        have h100 : (acc ++ [(⟨t1, t⟩ : ObsTimeRange)]).length = 100 := by
          simp at hfull ⊢
          omega
        have hlen2 : 100 ≤ (acc ++ ([(⟨t1, t⟩ : ObsTimeRange)] ++
            obs_inventory_interior_gaps t rest)).length := by
          simp at h100 ⊢
          omega
        rw [if_pos hlen2, ← List.append_assoc]
        exact (List.take_left' h100).symm
      · rw [if_neg hfull]
        rw [ih (acc ++ [(⟨t1, t⟩ : ObsTimeRange)]) t hz1 (by simp at hfull ⊢; omega)]
        rw [List.append_assoc]
    · rw [if_neg h4, if_neg h4]
      rw [ih acc t hz1 hlen]
      simp

set_option maxRecDepth 8000 in
/-- Claim C2, counterexample: with 101 stored rows spaced 8000 seconds apart
(a legal ascending in-range scan for the request `[0, 816001]`), the
analyzer does not return exactly the gaps described by the claim: the claim
calls for a leading gap, 100 interior gaps and a trailing gap (102 ranges),
but the code stops at the 100-entry cap and skips the trailing check. -/
theorem obs_db_have_inventory_claim_gaps_counterexample :
    (obs_db_have_inventory ⟨0, 816001⟩
        ((List.range 101).map (fun k => 8000 * ((k : Int) + 1)))).2 ≠
      obs_inventory_gaps_claim ⟨0, 816001⟩
        ((List.range 101).map (fun k => 8000 * ((k : Int) + 1))) := by
  decide

/-- The status component of the inventory analyzer is 1 exactly when the
gap list came out empty, mirroring the ALLOCATE_AND_RETURN branch. -/
theorem obs_db_have_inventory_status (tr : ObsTimeRange) (rows : List Int) :
    (obs_db_have_inventory tr rows).1 =
      (if (obs_db_have_inventory tr rows).2.length = 0 then 1 else 0) := by
  cases rows <;> rfl

/-- Claim C2 (amended): for every request and ascending scan free of the
zero-timestamp sentinel, the analyzer returns the claimed gap list with the
100-entry cap applied (once leading plus interior gaps reach 100 entries,
exactly the first 100 are returned and the trailing gap is dropped), and the
status is complete (1) exactly when the gap list is empty. -/
theorem obs_db_have_inventory_matches_capped_gaps (tr : ObsTimeRange)
    (rows : List Int) (hz : ∀ t ∈ rows, t ≠ 0) :
    (obs_db_have_inventory tr rows).2 = obs_inventory_gaps_capped tr rows ∧
    (obs_db_have_inventory tr rows).1 =
      (if (obs_db_have_inventory tr rows).2 = [] then 1 else 0) := by
  constructor
  · cases rows with
    | nil => rfl
    | cons t1 rest =>
      show obs_db_have_inventory_loop tr _ t1 rest = _
      rw [obs_db_have_inventory_loop_eq tr rest _ t1
        (fun t ht => hz t (by simp [ht])) (by split <;> simp)]
      rfl
  · rw [obs_db_have_inventory_status]
    rcases h : (obs_db_have_inventory tr rows).2 with _ | ⟨g, gs⟩ <;> simp

/-- Witness for the amended claim C2 at a concrete scan with one row. -/
theorem obs_db_have_inventory_matches_capped_gaps_witness :
    (obs_db_have_inventory ⟨0, 6000⟩ [5000]).2 =
      obs_inventory_gaps_capped ⟨0, 6000⟩ [5000] :=
  (obs_db_have_inventory_matches_capped_gaps ⟨0, 6000⟩ [5000] (by decide)).1

/-- Claim C3, counterexample: with one stored row at 10000 inside the
request `[0, 20000]`, the analyzer returns the leading gap `(0, 10000)` and
the trailing gap `(10000, 20000)`.  Both contain the time 10000 under the
inclusive range semantics of the data model, so the returned ranges are not
pairwise disjoint. -/
theorem obs_db_have_inventory_disjoint_counterexample :
    (⟨0, 10000⟩ : ObsTimeRange) ∈ (obs_db_have_inventory ⟨0, 20000⟩ [10000]).2 ∧
    (⟨10000, 20000⟩ : ObsTimeRange) ∈ (obs_db_have_inventory ⟨0, 20000⟩ [10000]).2 ∧
    (⟨0, 10000⟩ : ObsTimeRange) ≠ (⟨10000, 20000⟩ : ObsTimeRange) ∧
    ObsTimeRange.containsTime ⟨0, 10000⟩ 10000 ∧
    ObsTimeRange.containsTime ⟨10000, 20000⟩ 10000 := by
  decide

/-- Claim C3 (amended): for every request with `tr.start < tr.end` and
every ascending in-range scan, the missing ranges are contained in the
request with positive width, consecutive ranges touch at most at an
endpoint (each range ends no later than the next one starts, so interiors
are pairwise disjoint), starts are strictly ascending, and at most 100
ranges are returned. -/
theorem obs_db_have_inventory_gaps_invariants (tr : ObsTimeRange)
    (rows : List Int) (hlt : tr.start < tr.stop)
    (hsort : List.Chain' (fun a b : Int => a < b) rows)
    (hrange : ∀ t ∈ rows, tr.start ≤ t ∧ t ≤ tr.stop) :
    (∀ g ∈ (obs_db_have_inventory tr rows).2,
        tr.start ≤ g.start ∧ g.start < g.stop ∧ g.stop ≤ tr.stop) ∧
    List.Chain' (fun g1 g2 => g1.stop ≤ g2.start)
      (obs_db_have_inventory tr rows).2 ∧
    List.Chain' (fun g1 g2 => g1.start < g2.start)
      (obs_db_have_inventory tr rows).2 ∧
    (obs_db_have_inventory tr rows).2.length ≤ 100 := by
  have main : (∀ g ∈ (obs_db_have_inventory tr rows).2,
      tr.start ≤ g.start ∧ g.start < g.stop ∧ g.stop ≤ tr.stop) ∧
      List.Chain' (fun g1 g2 => g1.stop ≤ g2.start)
        (obs_db_have_inventory tr rows).2 ∧
      (obs_db_have_inventory tr rows).2.length ≤ 100 := by
    cases rows with
    | nil =>
      refine ⟨?_, ?_, ?_⟩
      · intro g hg
        simp [obs_db_have_inventory] at hg
        subst hg
        exact ⟨le_refl _, hlt, le_refl _⟩
      · exact List.chain'_singleton _
      · simp [obs_db_have_inventory]
    | cons t1 rest =>
      refine obs_db_have_inventory_loop_invariant tr rest _ t1 hsort hrange
        ?_ ?_ ?_ ?_
      · intro g hg
        by_cases h : tr.start < t1 ∧ 4000 < t1 - tr.start
        · rw [if_pos h] at hg
          simp at hg
          subst hg
          exact ⟨le_refl _, h.1, (hrange t1 (by simp)).2⟩
        · rw [if_neg h] at hg
          simp at hg
      · by_cases h : tr.start < t1 ∧ 4000 < t1 - tr.start
        · rw [if_pos h]
          exact List.chain'_singleton _
        · rw [if_neg h]
          exact List.chain'_nil
      · intro g hg
        by_cases h : tr.start < t1 ∧ 4000 < t1 - tr.start
        · rw [if_pos h] at hg
          simp at hg
          subst hg
          exact le_refl _
        · rw [if_neg h] at hg
          simp at hg
      · split <;> simp
  refine ⟨main.1, main.2.1, ?_, main.2.2⟩
  exact list_chain_of_chain_mem _ main.2.1 main.1
    (fun x y hx _ hr => lt_of_lt_of_le hx.2.1 hr)

/-- Witness for the amended claim C3 at a concrete scan with one row. -/
theorem obs_db_have_inventory_gaps_invariants_witness :
    (obs_db_have_inventory ⟨0, 6000⟩ [5000]).2.length ≤ 100 :=
  (obs_db_have_inventory_gaps_invariants ⟨0, 6000⟩ [5000] (by decide)
    (List.chain'_singleton _) (by decide)).2.2.2

/-!
## Windowed aggregation engine (obs_db.c lines 304-697)

`HOURSEC` is the seconds-per-hour constant used throughout obs_db.c.
`gmtime`/`timegm` round-trips that zero out the hour, minute and second
fields compute the start of the UTC day containing a timestamp, modelled
with Euclidean division; `tm_hour` of a timestamp is its hour of the UTC
day.  The double arithmetic of `obs_db_query_calculate_num_results` is
modelled exactly over `ℚ`, with the `(size_t)` cast as the floor and the
division-by-zero infinity of IEEE doubles folded into the size check.
-/

/-- The seconds-per-hour constant `HOURSEC`. -/
def HOURSEC : Int := 3600

/-- Midnight UTC of the day containing `t`: the `gmtime`, zero the
`tm_hour`, `tm_min`, `tm_sec` fields, `timegm` sequence used by both query
loops (obs_db.c lines 461-466 and 659-664). -/
def obs_gmtime_day_start (t : Int) : Int := t - t % 86400

/-- Hour of the UTC day of a timestamp, the `tm_hour` field produced by
`gmtime` in the precipitation reducer (obs_db.c lines 620-621). -/
def obs_tm_hour (t : Int) : Int := (t % 86400) / 3600

/-- The while loop advancing the first window end from midnight to the
first multiple of the step not before `target` (obs_db.c lines 467-469 and
665-666).  A non-positive step ends the loop immediately (in the code the
step is a positive constant whenever the loop runs). -/
def obs_first_period_end (stepSec target e : Int) : Int :=
  if h : 0 < stepSec ∧ e < target then
    obs_first_period_end stepSec target (e + stepSec)
  else e
termination_by (target - e).toNat
decreasing_by
  simp_wf
  omega

/-- Model of `obs_db_query_calculate_num_results` (obs_db.c lines 304-315):
`none` is the `SIZE_MAX` error return.  A backwards range errors; the double
quotient `(diff + 1) / 3600 / window_increment` is compared against
`(double)SIZE_MAX / 2.0 = 2^63` and then truncated to an integer.  A zero
`window_increment` makes the IEEE quotient `+inf`, which trips the size
check, hence the explicit `none` branch. -/
def obs_db_query_calculate_num_results (tr : ObsTimeRange)
    (window_increment : Nat) : Option Nat :=
  let diff : Int := tr.stop - tr.start
  if diff < 0 then none
  else if window_increment = 0 then none
  else
    let num : ℚ := ((diff : ℚ) + 1) / 3600 / (window_increment : ℚ)
    if (2 ^ 63 : ℚ) ≤ num then none
    else some (Nat.floor num)

/-- Hourly temperature scan row (`struct ObsTemperature` as read back by
`obs_db_query_temperatures_get_hourlies_step_row`; the column type check
guarantees a non-NaN value, so the temperature is a plain `ℚ`). -/
structure ObsTemperature where
  valid_time : Int
  temperature_f : ℚ
deriving DecidableEq, Repr

/-- Aggregated temperature output (`struct ObsTemperature` as written by
the query loop); `none` models the NaN emitted for an empty window. -/
structure ObsTemperatureResult where
  valid_time : Int
  temperature_f : Option ℚ
deriving DecidableEq, Repr

/-- `OBS_DB_MAX_MODE` from obs_db.h. -/
def OBS_DB_MAX_MODE : Int := 1

/-- `OBS_DB_MIN_MODE` from obs_db.h. -/
def OBS_DB_MIN_MODE : Int := 2

/-- One comparison step of the max/min fold (obs_db.c lines 429-435): a NaN
accumulator takes the value, otherwise the value replaces the accumulator
when the mode asks for max and it is larger, or for min and it is smaller. -/
def obs_db_max_min_combine (mode : Int) (acc : Option ℚ) (val : ℚ) : Option ℚ :=
  match acc with
  | none => some val
  | some m =>
    if mode = OBS_DB_MAX_MODE ∧ m < val then some val
    else if mode = OBS_DB_MIN_MODE ∧ val < m then some val
    else some m

/-- The scan walk of `obs_db_query_temperatures_max_min_in_window`
(obs_db.c lines 406-439) with its accumulator and slide counter made
explicit: rows before the window start are counted into the slide, the walk
stops at the first row past the window end, rows inside `[start, end]` are
folded into the accumulator. -/
def obs_db_max_min_loop (mode s e : Int) (acc : Option ℚ) (dropped : Nat) :
    List ObsTemperature → Option ℚ × Nat
  | [] => (acc, dropped)
  | ob :: rest =>
    if ob.valid_time < s then obs_db_max_min_loop mode s e acc (dropped + 1) rest
    else if e < ob.valid_time then (acc, dropped)
    else obs_db_max_min_loop mode s e
      (obs_db_max_min_combine mode acc ob.temperature_f) dropped rest

/-- Model of `obs_db_query_temperatures_max_min_in_window`: the returned
value plus the number of leading rows the sliding pointer skips past. -/
def obs_db_query_temperatures_max_min_in_window (mode s e : Int)
    (l : List ObsTemperature) : Option ℚ × Nat :=
  obs_db_max_min_loop mode s e none 0 l

/-- The emission loop of `obs_db_query_temperatures` (obs_db.c lines
474-485): while the period end is before `tr.end` and fewer than the
calculated maximum of results have been emitted, emit the window value at
the period end and advance by 24 hours; the fuel argument is the remaining
result budget. -/
def obs_db_query_temperatures_loop (mode : Int) (window_length : Nat)
    (trEnd : Int) : Nat → Int → List ObsTemperature → List ObsTemperatureResult
  | 0, _, _ => []
  | fuel + 1, e, l =>
    if e < trEnd then
      let r := obs_db_query_temperatures_max_min_in_window mode
        (e - HOURSEC * window_length) e l
      ⟨e, r.1⟩ :: obs_db_query_temperatures_loop mode window_length trEnd fuel
        (e + HOURSEC * 24) (l.drop r.2)
    else []

/-- Result record of a temperature query: the returned code, the caller's
`*results` pointer (`none` models a null pointer) and `*num_results`. -/
structure TempQueryOut where
  rc : Int
  results : Option (List ObsTemperatureResult)
  num_results : Nat
deriving DecidableEq, Repr

/-- Model of `obs_db_query_temperatures` (obs_db.c lines 441-500).
`hours` is the ascending hourly scan delivered by SQLite for
`(site, tr)`; `window_end` is accepted but never read, exactly as in the
code.  A failed result-count calculation takes the error return, which
frees the outputs and zeroes the count. -/
def obs_db_query_temperatures (mode : Int) (hours : List ObsTemperature)
    (tr : ObsTimeRange) (window_end window_length : Nat) : TempQueryOut :=
  match obs_db_query_calculate_num_results tr 24 with
  | none => ⟨-1, none, 0⟩
  | some calcNum =>
    let e0 := obs_first_period_end (HOURSEC * 24) tr.start
      (obs_gmtime_day_start tr.start)
    let out := obs_db_query_temperatures_loop mode window_length tr.stop
      calcNum e0 hours
    ⟨0, some out, out.length⟩

/-- Hourly precipitation scan row (`struct ObsPrecipitation` as read back
by the hourly scan; the column type check guarantees a non-NaN value). -/
structure ObsPrecipitation where
  valid_time : Int
  precip_in : ℚ
deriving DecidableEq, Repr

/-- Aggregated precipitation output; the accumulation is always a number. -/
structure ObsPrecipitationResult where
  valid_time : Int
  precip_in : ℚ
deriving DecidableEq, Repr

/-- The local state of the precipitation reducer (obs_db.c lines 595-598):
running sum, hour of the last counted report (initially -1), value of the
last report in that hour (initially 0), and the trace flag. -/
structure PrecipAccumState where
  sum_val : ℚ
  last_hour : Int
  last_hour_val : ℚ
  trace_flag : Bool
deriving DecidableEq, Repr

/-- Initial reducer state (obs_db.c lines 595-598). -/
def obs_precip_init : PrecipAccumState := ⟨0, -1, 0, false⟩

/-- One in-window row of the precipitation reducer (obs_db.c lines
617-627): a trace value (strictly between 0 and 0.01) only sets the trace
flag; any other value flushes the previous last-hour value into the sum
when the UTC hour changes, then becomes the new last-hour value. -/
def obs_precip_step (st : PrecipAccumState) (hour : Int) (val : ℚ) :
    PrecipAccumState :=
  if val < 1 / 100 ∧ 0 < val then { st with trace_flag := true }
  else
    { st with
      sum_val := if hour ≠ st.last_hour then st.sum_val + st.last_hour_val
        else st.sum_val
      last_hour := hour
      last_hour_val := val }

/-- The post-loop finish of the precipitation reducer (obs_db.c lines
630-636): flush the final last-hour value, then return the trace amount
0.001 when only traces below 0.005 accumulated. -/
def obs_precip_finish (st : PrecipAccumState) : ℚ :=
  if st.trace_flag ∧ st.sum_val + st.last_hour_val < 1 / 200 then 1 / 1000
  else st.sum_val + st.last_hour_val

/-- The scan walk of `obs_db_query_precipitation_accumulation_in_window`
(obs_db.c lines 591-628) with state and slide counter explicit: rows
before the window start are counted into the slide, the walk stops at the
first row past the window end, in-window rows go through the reducer
step. -/
def obs_precip_loop (s e : Int) (st : PrecipAccumState) (dropped : Nat) :
    List ObsPrecipitation → PrecipAccumState × Nat
  | [] => (st, dropped)
  | ob :: rest =>
    if ob.valid_time < s then obs_precip_loop s e st (dropped + 1) rest
    else if e < ob.valid_time then (st, dropped)
    else obs_precip_loop s e
      (obs_precip_step st (obs_tm_hour ob.valid_time) ob.precip_in) dropped rest

/-- Model of `obs_db_query_precipitation_accumulation_in_window`: the
accumulated value plus the number of leading rows the sliding pointer
skips past. -/
def obs_db_query_precipitation_accumulation_in_window (s e : Int)
    (l : List ObsPrecipitation) : ℚ × Nat :=
  let r := obs_precip_loop s e obs_precip_init 0 l
  (obs_precip_finish r.1, r.2)

/-- The accumulation described by claim C6 over the in-window rows: the
same reducer steps walked over the whole row list, followed by the same
finish, with none of the sliding-window plumbing. -/
def obs_precip_claim_accum (rows : List ObsPrecipitation) : ℚ :=
  obs_precip_finish (rows.foldl
    (fun st ob => obs_precip_step st (obs_tm_hour ob.valid_time) ob.precip_in)
    obs_precip_init)

/-- The emission loop of `obs_db_query_precipitation` (obs_db.c lines
672-682), stepping by `window_increment` hours. -/
def obs_db_query_precipitation_loop (window_length window_increment : Nat)
    (trEnd : Int) : Nat → Int → List ObsPrecipitation → List ObsPrecipitationResult
  | 0, _, _ => []
  | fuel + 1, e, l =>
    if e < trEnd then
      let r := obs_db_query_precipitation_accumulation_in_window
        (e - HOURSEC * window_length) e l
      ⟨e, r.1⟩ :: obs_db_query_precipitation_loop window_length window_increment
        trEnd fuel (e + HOURSEC * window_increment) (l.drop r.2)
    else []

/-- Result record of a precipitation query, as for temperatures. -/
structure PrecipQueryOut where
  rc : Int
  results : Option (List ObsPrecipitationResult)
  num_results : Nat
deriving DecidableEq, Repr

/-- Model of `obs_db_query_precipitation` (obs_db.c lines 639-697).
`hours` is the ascending hourly scan delivered by SQLite for `(site, tr)`. -/
def obs_db_query_precipitation (hours : List ObsPrecipitation)
    (tr : ObsTimeRange) (window_length window_increment : Nat) :
    PrecipQueryOut :=
  match obs_db_query_calculate_num_results tr window_increment with
  | none => ⟨-1, none, 0⟩
  | some calcNum =>
    let e0 := obs_first_period_end (HOURSEC * window_increment) tr.start
      (obs_gmtime_day_start tr.start)
    let out := obs_db_query_precipitation_loop window_length window_increment
      tr.stop calcNum e0 hours
    ⟨0, some out, out.length⟩

/-- Stop case of the first-period-end loop. -/
theorem obs_first_period_end_stop {s t e : Int} (h : ¬(0 < s ∧ e < t)) :
    obs_first_period_end s t e = e := by
  rw [obs_first_period_end, dif_neg h]

/-- Step case of the first-period-end loop. -/
theorem obs_first_period_end_step {s t e : Int} (h : 0 < s ∧ e < t) :
    obs_first_period_end s t e = obs_first_period_end s t (e + s) := by
  conv_lhs => rw [obs_first_period_end]
  rw [dif_pos h]

/-- Evaluation of the natural floor of a quotient of naturals cast to `ℚ`. -/
theorem nat_floor_cast_div (a b : ℕ) :
    Nat.floor (((a : ℕ) : ℚ) / ((b : ℕ) : ℚ)) = a / b := by
  rw [Nat.floor_div_nat, Nat.floor_natCast]

/-- Claim C7: under the TimeRange invariant `start ≤ end` and a positive
step, the calculated maximum number of results equals
`((tr.end - tr.start) + 1) / 3600 / step` in integer division, the
calculation errors out exactly when that count reaches `2^63` (the value of
`(double)SIZE_MAX / 2.0`), and a failed calculation makes the precipitation
query (whose step is its window increment) and the temperature query (whose
step is 24) return the failure record with no results. -/
theorem obs_db_query_calculate_num_results_formula (tr : ObsTimeRange)
    (step : Nat) (hstep : 1 ≤ step) (hord : tr.start ≤ tr.stop) :
    (obs_db_query_calculate_num_results tr step =
      (if (tr.stop - tr.start + 1).toNat / 3600 / step < 2 ^ 63 then
        some ((tr.stop - tr.start + 1).toNat / 3600 / step)
      else none)) ∧
    (obs_db_query_calculate_num_results tr step = none →
      ∀ (hours : List ObsPrecipitation) (window_length : Nat),
        obs_db_query_precipitation hours tr window_length step = ⟨-1, none, 0⟩) ∧
    (obs_db_query_calculate_num_results tr 24 = none →
      ∀ (mode : Int) (hours : List ObsTemperature) (window_end window_length : Nat),
        obs_db_query_temperatures mode hours tr window_end window_length =
          ⟨-1, none, 0⟩) := by
  refine ⟨?_, ?_, ?_⟩
  · have hnn : ¬ tr.stop - tr.start < 0 := by omega
    have hz : ¬ step = 0 := by omega
    set n : ℕ := (tr.stop - tr.start + 1).toNat with hn
    have hq : ((tr.stop - tr.start : ℤ) : ℚ) + 1 = ((n : ℕ) : ℚ) := by
      have h1 : ((n : ℕ) : ℤ) = tr.stop - tr.start + 1 := Int.toNat_of_nonneg (by omega)
      have h2 : ((tr.stop - tr.start : ℤ) : ℚ) + 1 = ((tr.stop - tr.start + 1 : ℤ) : ℚ) := by
        push_cast
        ring
      rw [h2, ← h1]
      push_cast
      ring
    unfold obs_db_query_calculate_num_results
    simp only [if_neg hnn, if_neg hz]
    have hrw : (((tr.stop - tr.start : ℤ) : ℚ) + 1) / 3600 / ((step : ℕ) : ℚ)
        = ((n : ℕ) : ℚ) / (((3600 * step : ℕ) : ℕ) : ℚ) := by
      rw [hq, div_div]
      congr 1
      push_cast
      ring
    rw [hrw]
    have hfl : Nat.floor (((n : ℕ) : ℚ) / (((3600 * step : ℕ) : ℕ) : ℚ)) =
        n / 3600 / step := by
      rw [nat_floor_cast_div, Nat.div_div_eq_div_mul]
    have hth : ((2 : ℚ) ^ 63 ≤ ((n : ℕ) : ℚ) / (((3600 * step : ℕ) : ℕ) : ℚ)) ↔
        (2 ^ 63 ≤ n / 3600 / step) := by
      rw [show ((2 : ℚ) ^ 63) = (((2 ^ 63 : ℕ) : ℕ) : ℚ) by push_cast; ring]
      constructor
      · intro h
        rw [← hfl]
        exact Nat.le_floor h
      · intro h
        exact (Nat.le_floor_iff (by positivity)).1 (by rw [hfl]; exact h)
    by_cases hcase : 2 ^ 63 ≤ n / 3600 / step
    · rw [if_pos (hth.2 hcase), if_neg (by omega)]
    · rw [if_neg (fun hc => hcase (hth.1 hc)), if_pos (by omega), hfl]
  · intro hnone hours window_length
    rw [obs_db_query_precipitation, hnone]
  · intro hnone mode hours window_end window_length
    rw [obs_db_query_temperatures, hnone]

/-- Witness for claim C7 at a one-day range with a one-hour step. -/
theorem obs_db_query_calculate_num_results_formula_witness :
    obs_db_query_calculate_num_results ⟨0, 86399⟩ 1 = some 24 := by
  have h := (obs_db_query_calculate_num_results_formula ⟨0, 86399⟩ 1 (by norm_num)
    (by norm_num)).1
  rw [h]
  norm_num
  decide

/-- Midnight of the containing day is never after the timestamp. -/
theorem obs_gmtime_day_start_le (t : Int) : obs_gmtime_day_start t ≤ t := by
  unfold obs_gmtime_day_start
  omega

/-- Midnight of the containing day is a multiple of 86400 seconds. -/
theorem obs_gmtime_day_start_mod (t : Int) : obs_gmtime_day_start t % 86400 = 0 := by
  unfold obs_gmtime_day_start
  omega

/-- With a positive step, the first-period-end loop stops at or after the
target. -/
theorem obs_first_period_end_ge (s t e : Int) (hs : 0 < s) :
    t ≤ obs_first_period_end s t e := by
  rw [obs_first_period_end]
  split
  · exact obs_first_period_end_ge s t (e + s) hs
  · next h =>
    push_neg at h
    omega
termination_by (t - e).toNat
decreasing_by
  simp_wf
  omega

/-- The first-period-end loop only ever adds whole steps to its start. -/
theorem obs_first_period_end_multiple (s t e : Int) :
    ∃ k : ℕ, obs_first_period_end s t e = e + s * k := by
  rw [obs_first_period_end]
  split
  · rcases obs_first_period_end_multiple s t (e + s) with ⟨k, hk⟩
    refine ⟨k + 1, ?_⟩
    rw [hk]
    push_cast
    ring
  · exact ⟨0, by simp⟩
termination_by (t - e).toNat
decreasing_by
  simp_wf
  omega

/-- Every output of the temperature emission loop carries a `valid_time` at
or after the loop entry period end, strictly before the range end, and a
whole number of 24-hour steps after the entry period end. -/
theorem obs_db_query_temperatures_loop_mem (mode : Int) (wl : Nat) (trEnd : Int) :
    ∀ (fuel : Nat) (e : Int) (l : List ObsTemperature),
      ∀ ob ∈ obs_db_query_temperatures_loop mode wl trEnd fuel e l,
        e ≤ ob.valid_time ∧ ob.valid_time < trEnd ∧
          ∃ k : ℕ, ob.valid_time = e + 86400 * k := by
  intro fuel
  induction fuel with
  | zero =>
    intro e l ob hob
    simp [obs_db_query_temperatures_loop] at hob
  | succ fuel ih =>
    intro e l ob hob
    rw [obs_db_query_temperatures_loop] at hob
    by_cases he : e < trEnd
    · rw [if_pos he] at hob
      rcases List.mem_cons.1 hob with hob | hob
      · subst hob
        exact ⟨le_refl _, he, ⟨0, by simp⟩⟩
      · rcases ih _ _ ob hob with ⟨h1, h2, k, hk⟩
        have hstep : (HOURSEC : Int) * 24 = 86400 := by norm_num [HOURSEC]
        rw [hstep] at h1 hk
        refine ⟨by omega, h2, ⟨k + 1, ?_⟩⟩
        rw [hk]
        push_cast
        ring
    · rw [if_neg he] at hob
      simp at hob

/-- Every output of the precipitation emission loop carries a `valid_time`
at or after the loop entry period end, strictly before the range end, and a
whole number of increment steps after the entry period end. -/
theorem obs_db_query_precipitation_loop_mem (wl wi : Nat) (trEnd : Int) :
    ∀ (fuel : Nat) (e : Int) (l : List ObsPrecipitation),
      ∀ ob ∈ obs_db_query_precipitation_loop wl wi trEnd fuel e l,
        e ≤ ob.valid_time ∧ ob.valid_time < trEnd ∧
          ∃ k : ℕ, ob.valid_time = e + (3600 * wi) * k := by
  intro fuel
  induction fuel with
  | zero =>
    intro e l ob hob
    simp [obs_db_query_precipitation_loop] at hob
  | succ fuel ih =>
    intro e l ob hob
    rw [obs_db_query_precipitation_loop] at hob
    by_cases he : e < trEnd
    · rw [if_pos he] at hob
      rcases List.mem_cons.1 hob with hob | hob
      · subst hob
        exact ⟨le_refl _, he, ⟨0, by simp⟩⟩
      · rcases ih _ _ ob hob with ⟨h1, h2, k, hk⟩
        have hstep : (HOURSEC : Int) * (wi : Int) = 3600 * (wi : Int) := by
          norm_num [HOURSEC]
        rw [hstep] at h1 hk
        have hS : (0 : Int) ≤ 3600 * (wi : Int) := by positivity
        refine ⟨by omega, h2, ⟨k + 1, ?_⟩⟩
        rw [hk]
        push_cast
        ring
    · rw [if_neg he] at hob
      simp at hob

/-- A zero window increment always fails the result-count calculation (the
IEEE quotient is infinite). -/
theorem obs_db_query_calculate_num_results_zero (tr : ObsTimeRange) :
    obs_db_query_calculate_num_results tr 0 = none := by
  unfold obs_db_query_calculate_num_results
  simp

/-- Claim C4, counterexample: for the request `[0, 86400]` (whose start is
midnight UTC) the temperature query emits exactly one window, with
`valid_time = 0 = tr.start`; this valid time does not lie in the half-open
interval `(tr.start, tr.end]` that the claim asserts. -/
theorem obs_db_query_temperatures_first_window_counterexample :
    (obs_db_query_temperatures OBS_DB_MAX_MODE [] ⟨0, 86400⟩ 0 24).results =
      some [⟨0, none⟩] ∧ ¬ ((0 : Int) > 0 ∧ (0 : Int) ≤ 86400) := by
  constructor
  · have hc : obs_db_query_calculate_num_results ⟨0, 86400⟩ 24 = some 1 := by
      rw [obs_db_query_calculate_num_results]
      norm_num
      rw [show (86401 : ℚ) = ((86401 : ℕ) : ℚ) by norm_num,
        show (86400 : ℚ) = ((86400 : ℕ) : ℚ) by norm_num, nat_floor_cast_div]
    rw [obs_db_query_temperatures, hc]
    norm_num [obs_gmtime_day_start, HOURSEC]
    rw [obs_first_period_end_stop (by norm_num)]
    rw [obs_db_query_temperatures_loop]
    norm_num [obs_db_query_temperatures_max_min_in_window, obs_db_max_min_loop,
      obs_db_query_temperatures_loop]
  · simp

/-- Claim C4 (amended): every output of the temperature query and of the
precipitation query has a `valid_time` equal to midnight UTC of the day
containing `tr.start` plus a whole number of window steps (24 hours for
temperature, `window_increment` hours for precipitation), and every emitted
`valid_time` lies in the half-open-right interval `[tr.start, tr.end)`;
windows are emitted while the window end is below `tr.end` and the output
count is below the calculated maximum. -/
theorem obs_db_query_windows_in_range_and_aligned (tr : ObsTimeRange) :
    (∀ (mode : Int) (hours : List ObsTemperature) (window_end window_length : Nat)
        (out : List ObsTemperatureResult),
      (obs_db_query_temperatures mode hours tr window_end window_length).results =
        some out →
      ∀ ob ∈ out, tr.start ≤ ob.valid_time ∧ ob.valid_time < tr.stop ∧
        ∃ k : ℕ, ob.valid_time = obs_gmtime_day_start tr.start + 86400 * k) ∧
    (∀ (hours : List ObsPrecipitation) (window_length window_increment : Nat)
        (out : List ObsPrecipitationResult),
      (obs_db_query_precipitation hours tr window_length window_increment).results =
        some out →
      ∀ ob ∈ out, tr.start ≤ ob.valid_time ∧ ob.valid_time < tr.stop ∧
        ∃ k : ℕ, ob.valid_time =
          obs_gmtime_day_start tr.start + (3600 * window_increment) * k) := by
  constructor
  · intro mode hours window_end window_length out hres ob hob
    rw [obs_db_query_temperatures] at hres
    rcases hcm : obs_db_query_calculate_num_results tr 24 with _ | cn
    · rw [hcm] at hres
      simp at hres
    · rw [hcm] at hres
      simp only [Option.some.injEq] at hres
      subst hres
      rcases obs_db_query_temperatures_loop_mem mode window_length tr.stop cn _ hours
        ob hob with ⟨h1, h2, k1, hk1⟩
      have hpos : (0 : Int) < HOURSEC * 24 := by norm_num [HOURSEC]
      have he0 : tr.start ≤ obs_first_period_end (HOURSEC * 24) tr.start
          (obs_gmtime_day_start tr.start) := obs_first_period_end_ge _ _ _ hpos
      rcases obs_first_period_end_multiple (HOURSEC * 24) tr.start
        (obs_gmtime_day_start tr.start) with ⟨k0, hk0⟩
      refine ⟨le_trans he0 h1, h2, ⟨k0 + k1, ?_⟩⟩
      rw [hk1, hk0]
      norm_num [HOURSEC]
      ring
  · intro hours window_length window_increment out hres ob hob
    rw [obs_db_query_precipitation] at hres
    rcases hcm : obs_db_query_calculate_num_results tr window_increment with _ | cn
    · rw [hcm] at hres
      simp at hres
    · rw [hcm] at hres
      simp only [Option.some.injEq] at hres
      subst hres
      have hwi : window_increment ≠ 0 := by
        intro h0
        rw [h0, obs_db_query_calculate_num_results_zero] at hcm
        cases hcm
      rcases obs_db_query_precipitation_loop_mem window_length window_increment
        tr.stop cn _ hours ob hob with ⟨h1, h2, k1, hk1⟩
      have hpos : (0 : Int) < HOURSEC * window_increment := by
        have : (0 : Int) < (window_increment : Int) := by
          exact_mod_cast Nat.pos_of_ne_zero hwi
        norm_num [HOURSEC]
        omega
      have he0 : tr.start ≤ obs_first_period_end (HOURSEC * window_increment)
          tr.start (obs_gmtime_day_start tr.start) :=
        obs_first_period_end_ge _ _ _ hpos
      rcases obs_first_period_end_multiple (HOURSEC * window_increment) tr.start
        (obs_gmtime_day_start tr.start) with ⟨k0, hk0⟩
      refine ⟨le_trans he0 h1, h2, ⟨k0 + k1, ?_⟩⟩
      rw [hk1, hk0]
      norm_num [HOURSEC]
      ring

/-- Witness for the amended claim C4: the single window emitted for the
request `[0, 86400]` sits at `tr.start` and on the day-start grid. -/
theorem obs_db_query_windows_in_range_and_aligned_witness :
    (0 : Int) ≤ 0 ∧ (0 : Int) < 86400 ∧
      ∃ k : ℕ, (0 : Int) = obs_gmtime_day_start 0 + 86400 * k := by
  have hres : (obs_db_query_temperatures OBS_DB_MAX_MODE [] ⟨0, 86400⟩ 0 24).results =
      some [⟨0, none⟩] := by
    have hc : obs_db_query_calculate_num_results ⟨0, 86400⟩ 24 = some 1 := by
      rw [obs_db_query_calculate_num_results]
      norm_num
      rw [show (86401 : ℚ) = ((86401 : ℕ) : ℚ) by norm_num,
        show (86400 : ℚ) = ((86400 : ℕ) : ℚ) by norm_num, nat_floor_cast_div]
    rw [obs_db_query_temperatures, hc]
    norm_num [obs_gmtime_day_start, HOURSEC]
    rw [obs_first_period_end_stop (by norm_num)]
    rw [obs_db_query_temperatures_loop]
    norm_num [obs_db_query_temperatures_max_min_in_window, obs_db_max_min_loop,
      obs_db_query_temperatures_loop]
  exact (obs_db_query_windows_in_range_and_aligned ⟨0, 86400⟩).1 OBS_DB_MAX_MODE []
    0 24 [⟨0, none⟩] hres ⟨0, none⟩ (by simp)

/-- The first output of the temperature emission loop, when present, sits
exactly at the entry period end. -/
theorem obs_db_query_temperatures_loop_head (mode : Int) (wl : Nat) (trEnd : Int)
    (fuel : Nat) (e : Int) (l : List ObsTemperature) :
    ∀ ob, (obs_db_query_temperatures_loop mode wl trEnd fuel e l).head? = some ob →
      ob.valid_time = e := by
  cases fuel with
  | zero =>
    intro ob h
    simp [obs_db_query_temperatures_loop] at h
  | succ fuel =>
    intro ob h
    rw [obs_db_query_temperatures_loop] at h
    by_cases he : e < trEnd
    · rw [if_pos he] at h
      simp at h
      rw [← h]
    · rw [if_neg he] at h
      simp at h

/-- Consecutive outputs of the temperature emission loop are exactly 24
hours apart. -/
theorem obs_db_query_temperatures_loop_chain (mode : Int) (wl : Nat) (trEnd : Int) :
    ∀ (fuel : Nat) (e : Int) (l : List ObsTemperature),
      List.Chain' (fun a b => b.valid_time = a.valid_time + 86400)
        (obs_db_query_temperatures_loop mode wl trEnd fuel e l) := by
  intro fuel
  induction fuel with
  | zero =>
    intro e l
    simp [obs_db_query_temperatures_loop]
  | succ fuel ih =>
    intro e l
    rw [obs_db_query_temperatures_loop]
    by_cases he : e < trEnd
    · rw [if_pos he]
      rw [List.chain'_cons']
      constructor
      · intro b hb
        have hbe := obs_db_query_temperatures_loop_head mode wl trEnd fuel _ _ b hb
        rw [hbe]
        norm_num [HOURSEC]
      · exact ih _ _
    · rw [if_neg he]
      simp

/-- Claim C9: with both `window_end` arguments within the documented bound
of 24, the temperature query returns identical result records (the
parameter is never read), and the outputs are aligned to midnight UTC,
advancing by the fixed 24-hour step. -/
theorem obs_db_query_temperatures_window_end_has_no_effect (mode : Int)
    (hours : List ObsTemperature) (tr : ObsTimeRange) (we1 we2 wl : Nat)
    (hwe1 : we1 ≤ 24) (hwe2 : we2 ≤ 24) :
    obs_db_query_temperatures mode hours tr we1 wl =
      obs_db_query_temperatures mode hours tr we2 wl ∧
    (∀ out, (obs_db_query_temperatures mode hours tr we1 wl).results = some out →
      (∀ ob ∈ out, ob.valid_time % 86400 = 0) ∧
      List.Chain' (fun a b => b.valid_time = a.valid_time + 86400) out) := by
  constructor
  · rfl
  · intro out hres
    rw [obs_db_query_temperatures] at hres
    rcases hcm : obs_db_query_calculate_num_results tr 24 with _ | cn
    · rw [hcm] at hres
      simp at hres
    · rw [hcm] at hres
      simp only [Option.some.injEq] at hres
      subst hres
      constructor
      · intro ob hob
        rcases obs_db_query_temperatures_loop_mem mode wl tr.stop cn _ hours ob hob
          with ⟨_, _, k1, hk1⟩
        rcases obs_first_period_end_multiple (HOURSEC * 24) tr.start
          (obs_gmtime_day_start tr.start) with ⟨k0, hk0⟩
        have hds := obs_gmtime_day_start_mod tr.start
        rw [hk1, hk0]
        norm_num [HOURSEC]
        omega
      · exact obs_db_query_temperatures_loop_chain mode wl tr.stop cn _ hours

/-- Witness for claim C9 at `window_end` values 0 and 24. -/
theorem obs_db_query_temperatures_window_end_has_no_effect_witness :
    obs_db_query_temperatures OBS_DB_MAX_MODE [] ⟨0, 86400⟩ 0 24 =
      obs_db_query_temperatures OBS_DB_MAX_MODE [] ⟨0, 86400⟩ 24 24 :=
  (obs_db_query_temperatures_window_end_has_no_effect OBS_DB_MAX_MODE [] ⟨0, 86400⟩
    0 24 24 (by norm_num) (by norm_num)).1

/-- Boolean membership of a timestamp in the closed window `[s, e]`, used
to phrase the reducer folds. -/
def obs_in_window (s e vt : Int) : Bool := decide (s ≤ vt ∧ vt ≤ e)

/-- On a scan sorted by valid time, the max/min walk folds exactly the rows
inside the closed window `[s, e]`. -/
theorem obs_db_max_min_loop_value (mode s e : Int) :
    ∀ (l : List ObsTemperature) (acc : Option ℚ) (d : Nat),
      List.Pairwise (fun a b => a.valid_time ≤ b.valid_time) l →
      (obs_db_max_min_loop mode s e acc d l).1 =
        List.foldl (obs_db_max_min_combine mode) acc
          ((l.filter (fun ob => obs_in_window s e ob.valid_time)).map
            ObsTemperature.temperature_f) := by
  intro l
  induction l with
  | nil =>
    intro acc d _
    rfl
  | cons ob rest ih =>
    intro acc d hp
    rcases List.pairwise_cons.1 hp with ⟨hob, hrest⟩
    rw [obs_db_max_min_loop]
    by_cases h1 : ob.valid_time < s
    · rw [if_pos h1]
      have hf : obs_in_window s e ob.valid_time = false := by
        simp [obs_in_window]
        omega
      rw [ih _ _ hrest]
      simp [List.filter_cons, hf]
    · rw [if_neg h1]
      by_cases h2 : e < ob.valid_time
      · rw [if_pos h2]
        have hnil : (ob :: rest).filter
            (fun x => obs_in_window s e x.valid_time) = [] := by
          rw [List.filter_eq_nil_iff]
          intro x hx
          rcases List.mem_cons.1 hx with hx | hx
          · subst hx
            simp [obs_in_window]
            omega
          · have hxe := hob x hx
            simp [obs_in_window]
            omega
        rw [hnil]
        rfl
      · rw [if_neg h2]
        have hf : obs_in_window s e ob.valid_time = true := by
          simp [obs_in_window]
          omega
        rw [ih _ _ hrest]
        simp [List.filter_cons, hf]

/-- When nothing lies before the window start, the max/min walk slides
nothing. -/
theorem obs_db_max_min_loop_no_drop (mode s e : Int) :
    ∀ (l : List ObsTemperature) (acc : Option ℚ) (d : Nat),
      (∀ x ∈ l, ¬ x.valid_time < s) →
      (obs_db_max_min_loop mode s e acc d l).2 = d := by
  intro l
  induction l with
  | nil =>
    intro acc d _
    rfl
  | cons ob rest ih =>
    intro acc d hall
    rw [obs_db_max_min_loop, if_neg (hall ob (by simp))]
    by_cases h2 : e < ob.valid_time
    · rw [if_pos h2]
    · rw [if_neg h2]
      exact ih _ _ (fun x hx => hall x (by simp [hx]))

/-- On a sorted scan, the max/min walk slides past a prefix of rows before
the window start. -/
theorem obs_db_max_min_loop_drop (mode s e : Int) :
    ∀ (l : List ObsTemperature) (acc : Option ℚ) (d : Nat),
      List.Pairwise (fun a b => a.valid_time ≤ b.valid_time) l →
      ∃ k : Nat, (obs_db_max_min_loop mode s e acc d l).2 = d + k ∧
        k ≤ l.length ∧ ∀ x ∈ l.take k, x.valid_time < s := by
  intro l
  induction l with
  | nil =>
    intro acc d _
    exact ⟨0, rfl, by simp, by simp⟩
  | cons ob rest ih =>
    intro acc d hp
    rcases List.pairwise_cons.1 hp with ⟨hob, hrest⟩
    rw [obs_db_max_min_loop]
    by_cases h1 : ob.valid_time < s
    · rw [if_pos h1]
      rcases ih acc (d + 1) hrest with ⟨k, hk, hkl, hkx⟩
      refine ⟨k + 1, by rw [hk]; omega, by simp; omega, ?_⟩
      intro x hx
      rcases List.mem_cons.1 (by simpa [List.take_succ_cons] using hx) with hx | hx
      · subst hx
        exact h1
      · exact hkx x hx
    · rw [if_neg h1]
      by_cases h2 : e < ob.valid_time
      · rw [if_pos h2]
        exact ⟨0, by simp, by simp, by simp⟩
      · rw [if_neg h2]
        have hall : ∀ x ∈ rest, ¬ x.valid_time < s := by
          intro x hx
          have hxe := hob x hx
          omega
        rw [obs_db_max_min_loop_no_drop mode s e rest _ d hall]
        exact ⟨0, by simp, by simp, by simp⟩

/-- In max mode, folding the comparison step from a seeded accumulator is
the running maximum. -/
theorem obs_db_max_min_fold_max_seeded (qs : List ℚ) :
    ∀ m : ℚ, List.foldl (obs_db_max_min_combine OBS_DB_MAX_MODE) (some m) qs =
      some (qs.foldl max m) := by
  induction qs with
  | nil =>
    intro m
    rfl
  | cons q qs ih =>
    intro m
    rw [List.foldl_cons, List.foldl_cons]
    have hstep : obs_db_max_min_combine OBS_DB_MAX_MODE (some m) q = some (max m q) := by
      simp only [obs_db_max_min_combine, OBS_DB_MAX_MODE, OBS_DB_MIN_MODE]
      by_cases h : m < q
      · simp [h, max_eq_right h.le]
      · simp [h, max_eq_left (le_of_not_lt h)]
    rw [hstep, ih]

/-- In max mode, the fold of the comparison step from the NaN accumulator
is the optional maximum of the list. -/
theorem obs_db_max_min_fold_max (qs : List ℚ) :
    List.foldl (obs_db_max_min_combine OBS_DB_MAX_MODE) none qs = qs.max? := by
  cases qs with
  | nil => rfl
  | cons q qs =>
    rw [List.foldl_cons,
      show obs_db_max_min_combine OBS_DB_MAX_MODE none q = some q from rfl,
      obs_db_max_min_fold_max_seeded]
    rfl

/-- In min mode, folding the comparison step from a seeded accumulator is
the running minimum. -/
theorem obs_db_max_min_fold_min_seeded (qs : List ℚ) :
    ∀ m : ℚ, List.foldl (obs_db_max_min_combine OBS_DB_MIN_MODE) (some m) qs =
      some (qs.foldl min m) := by
  induction qs with
  | nil =>
    intro m
    rfl
  | cons q qs ih =>
    intro m
    rw [List.foldl_cons, List.foldl_cons]
    have hstep : obs_db_max_min_combine OBS_DB_MIN_MODE (some m) q = some (min m q) := by
      simp only [obs_db_max_min_combine, OBS_DB_MAX_MODE, OBS_DB_MIN_MODE]
      by_cases h : q < m
      · simp [h, min_eq_right h.le]
      · simp [h, min_eq_left (le_of_not_lt h)]
    rw [hstep, ih]

/-- In min mode, the fold of the comparison step from the NaN accumulator
is the optional minimum of the list. -/
theorem obs_db_max_min_fold_min (qs : List ℚ) :
    List.foldl (obs_db_max_min_combine OBS_DB_MIN_MODE) none qs = qs.min? := by
  cases qs with
  | nil => rfl
  | cons q qs =>
    rw [List.foldl_cons,
      show obs_db_max_min_combine OBS_DB_MIN_MODE none q = some q from rfl,
      obs_db_max_min_fold_min_seeded]
    rfl

/-- The emitted valid times of the temperature loop do not depend on the
scan data: every window is emitted whether or not rows fall in it. -/
theorem obs_db_query_temperatures_loop_times_data_free (mode : Int) (wl : Nat)
    (trEnd : Int) :
    ∀ (fuel : Nat) (e : Int) (l1 l2 : List ObsTemperature),
      (obs_db_query_temperatures_loop mode wl trEnd fuel e l1).map
          (fun ob => ob.valid_time) =
        (obs_db_query_temperatures_loop mode wl trEnd fuel e l2).map
          (fun ob => ob.valid_time) := by
  intro fuel
  induction fuel with
  | zero =>
    intro e l1 l2
    rfl
  | succ fuel ih =>
    intro e l1 l2
    rw [obs_db_query_temperatures_loop, obs_db_query_temperatures_loop]
    by_cases he : e < trEnd
    · rw [if_pos he, if_pos he]
      simp only [List.map_cons]
      rw [ih _ (List.drop _ l1) (List.drop _ l2)]
    · rw [if_neg he, if_neg he]

/-- Sliding correspondence for the temperature query loop: starting from
any slid position whose skipped prefix is entirely before the current
window start, every emitted value is the fold of the comparison step over
exactly the rows of the full scan inside the closed window ending at the
output valid time. -/
theorem obs_db_query_temperatures_loop_values (mode : Int) (wl : Nat)
    (trEnd : Int) (hours : List ObsTemperature)
    (hsort : List.Pairwise (fun a b => a.valid_time ≤ b.valid_time) hours) :
    ∀ (fuel : Nat) (e : Int) (m : Nat),
      (∀ x ∈ hours.take m, x.valid_time < e - HOURSEC * wl) →
      ∀ ob ∈ obs_db_query_temperatures_loop mode wl trEnd fuel e (hours.drop m),
        ob.temperature_f =
          List.foldl (obs_db_max_min_combine mode) none
            ((hours.filter (fun x => obs_in_window (ob.valid_time - HOURSEC * wl)
              ob.valid_time x.valid_time)).map ObsTemperature.temperature_f) := by
  intro fuel
  induction fuel with
  | zero =>
    intro e m _ ob hob
    simp [obs_db_query_temperatures_loop] at hob
  | succ fuel ih =>
    intro e m hm ob hob
    have hsortm : List.Pairwise
        (fun a b : ObsTemperature => a.valid_time ≤ b.valid_time) (hours.drop m) :=
      hsort.sublist (List.drop_sublist m hours)
    rw [obs_db_query_temperatures_loop] at hob
    by_cases he : e < trEnd
    · rw [if_pos he] at hob
      rcases List.mem_cons.1 hob with hob | hob
      · have hvt : ob.valid_time = e := by rw [hob]
        have htf : ob.temperature_f =
            (obs_db_query_temperatures_max_min_in_window mode (e - HOURSEC * wl) e
              (hours.drop m)).1 := by rw [hob]
        rw [htf, hvt, obs_db_query_temperatures_max_min_in_window,
          obs_db_max_min_loop_value mode _ _ (hours.drop m) none 0 hsortm]
        congr 1
        conv_rhs => rw [← List.take_append_drop m hours]
        rw [List.filter_append]
        have hnil : (hours.take m).filter
            (fun x => obs_in_window (e - HOURSEC * wl) e x.valid_time) = [] := by
          rw [List.filter_eq_nil_iff]
          intro x hx
          have hxlt := hm x hx
          simp [obs_in_window]
          omega
        rw [hnil, List.nil_append]
      · rcases obs_db_max_min_loop_drop mode (e - HOURSEC * wl) e (hours.drop m)
          none 0 hsortm with ⟨k, hk2, hkl, hkx⟩
        have hwnd : (obs_db_query_temperatures_max_min_in_window mode
            (e - HOURSEC * wl) e (hours.drop m)).2 = k := by
          rw [obs_db_query_temperatures_max_min_in_window, hk2]
          omega
        rw [hwnd, List.drop_drop] at hob
        refine ih (e + HOURSEC * 24) (m + k) ?_ ob hob
        intro x hx
        rw [List.take_add] at hx
        rcases List.mem_append.1 hx with hx | hx
        · have hxlt := hm x hx
          norm_num [HOURSEC] at hxlt ⊢
          omega
        · have hxlt := hkx x hx
          norm_num [HOURSEC] at hxlt ⊢
          omega
    · rw [if_neg he] at hob
      simp at hob

/-- Claim C5, counterexample: with rows at times 0 and 86400 (an ascending
in-range scan for the request `[0, 172800]`) and a 24-hour window, the
window emitted at valid_time 86400 carries the max over the closed interval
`[0, 86400]`, namely 50; the fold over the half-open interval
`(86400 - 24*3600, 86400]` claimed by C5 contains only the row value 20, so
the claimed value differs from the emitted one. -/
theorem obs_db_query_temperatures_closed_window_counterexample :
    (obs_db_query_temperatures OBS_DB_MAX_MODE [⟨0, 50⟩, ⟨86400, 20⟩]
        ⟨0, 172800⟩ 0 24).results =
      some [⟨0, some 50⟩, ⟨86400, some 50⟩] ∧
    ((([⟨0, 50⟩, ⟨86400, 20⟩] : List ObsTemperature).filter (fun x =>
        decide ((86400 : Int) - 24 * 3600 < x.valid_time ∧ x.valid_time ≤ 86400))).map
      ObsTemperature.temperature_f).max? = some 20 ∧
    some (50 : ℚ) ≠ some (20 : ℚ) := by
  refine ⟨?_, ?_, ?_⟩
  · have hc : obs_db_query_calculate_num_results ⟨0, 172800⟩ 24 = some 2 := by
      rw [obs_db_query_calculate_num_results]
      norm_num
      rw [show (172801 : ℚ) = ((172801 : ℕ) : ℚ) by norm_num,
        show (86400 : ℚ) = ((86400 : ℕ) : ℚ) by norm_num, nat_floor_cast_div]
    rw [obs_db_query_temperatures, hc]
    norm_num [obs_gmtime_day_start, HOURSEC]
    rw [obs_first_period_end_stop (by norm_num)]
    rw [obs_db_query_temperatures_loop]
    norm_num [obs_db_query_temperatures_max_min_in_window, obs_db_max_min_loop,
      obs_db_max_min_combine, OBS_DB_MAX_MODE, OBS_DB_MIN_MODE, HOURSEC,
      obs_db_query_temperatures_loop]
  · norm_num
  · norm_num

/-- Claim C5 (amended): on an ascending scan, every window emitted by the
temperature query carries the optional maximum (in max mode) or minimum
(in min mode) of exactly the hourly values whose valid time lies in the
closed interval `[valid_time - window_length*3600, valid_time]`, with
`none` (NaN) when no hourly value is in range; and the emitted window
sequence itself never depends on the data, so empty windows are emitted
rather than skipped. -/
theorem obs_db_query_temperatures_fold_in_closed_window
    (mode : Int) (hours : List ObsTemperature) (tr : ObsTimeRange)
    (window_end window_length : Nat) (out : List ObsTemperatureResult)
    (hsort : List.Pairwise (fun a b => a.valid_time ≤ b.valid_time) hours)
    (hres : (obs_db_query_temperatures mode hours tr window_end window_length).results =
      some out) :
    (∀ ob ∈ out,
      (mode = OBS_DB_MAX_MODE → ob.temperature_f =
        ((hours.filter (fun x => obs_in_window (ob.valid_time - HOURSEC * window_length)
          ob.valid_time x.valid_time)).map ObsTemperature.temperature_f).max?) ∧
      (mode = OBS_DB_MIN_MODE → ob.temperature_f =
        ((hours.filter (fun x => obs_in_window (ob.valid_time - HOURSEC * window_length)
          ob.valid_time x.valid_time)).map ObsTemperature.temperature_f).min?)) ∧
    (∃ out0,
      (obs_db_query_temperatures mode [] tr window_end window_length).results =
        some out0 ∧
      out.map (fun ob => ob.valid_time) = out0.map (fun ob => ob.valid_time)) := by
  have hmain : ∀ ob ∈ out, ob.temperature_f =
      List.foldl (obs_db_max_min_combine mode) none
        ((hours.filter (fun x => obs_in_window (ob.valid_time - HOURSEC * window_length)
          ob.valid_time x.valid_time)).map ObsTemperature.temperature_f) := by
    intro ob hob
    rw [obs_db_query_temperatures] at hres
    rcases hcm : obs_db_query_calculate_num_results tr 24 with _ | cn
    · rw [hcm] at hres
      simp at hres
    · rw [hcm] at hres
      simp only [Option.some.injEq] at hres
      subst hres
      have hob0 : ob ∈ obs_db_query_temperatures_loop mode window_length tr.stop cn
          (obs_first_period_end (HOURSEC * 24) tr.start
            (obs_gmtime_day_start tr.start)) (hours.drop 0) := by
        rw [List.drop_zero]
        exact hob
      exact obs_db_query_temperatures_loop_values mode window_length tr.stop hours
        hsort cn _ 0 (by simp) ob hob0
  constructor
  · intro ob hob
    constructor
    · intro hmode
      subst hmode
      rw [hmain ob hob, obs_db_max_min_fold_max]
    · intro hmode
      subst hmode
      rw [hmain ob hob, obs_db_max_min_fold_min]
  · rw [obs_db_query_temperatures] at hres ⊢
    rcases hcm : obs_db_query_calculate_num_results tr 24 with _ | cn
    · simp [hcm] at hres
    · simp only [hcm, Option.some.injEq] at hres
      subst hres
      exact ⟨_, rfl, obs_db_query_temperatures_loop_times_data_free mode
        window_length tr.stop cn _ hours []⟩

/-- Witness for the amended claim C5: one row at time 3600, one emitted
window ending at 86400 whose closed lookback `[0, 86400]` contains the row. -/
theorem obs_db_query_temperatures_fold_in_closed_window_witness :
    ((([⟨3600, 50⟩] : List ObsTemperature).filter (fun x =>
        obs_in_window ((86400 : Int) - HOURSEC * 24) 86400 x.valid_time)).map
      ObsTemperature.temperature_f).max? = some 50 := by
  have hc : obs_db_query_calculate_num_results ⟨3600, 90000⟩ 24 = some 1 := by
    rw [obs_db_query_calculate_num_results]
    norm_num
    rw [show (86401 : ℚ) = ((86401 : ℕ) : ℚ) by norm_num,
      show (86400 : ℚ) = ((86400 : ℕ) : ℚ) by norm_num, nat_floor_cast_div]
  have hres : (obs_db_query_temperatures OBS_DB_MAX_MODE [⟨3600, 50⟩]
      ⟨3600, 90000⟩ 0 24).results = some [⟨86400, some 50⟩] := by
    rw [obs_db_query_temperatures, hc]
    norm_num [obs_gmtime_day_start, HOURSEC]
    rw [obs_first_period_end_step (by norm_num), obs_first_period_end_stop (by norm_num)]
    rw [obs_db_query_temperatures_loop]
    norm_num [obs_db_query_temperatures_max_min_in_window, obs_db_max_min_loop,
      obs_db_max_min_combine, OBS_DB_MAX_MODE, OBS_DB_MIN_MODE, HOURSEC,
      obs_db_query_temperatures_loop]
  have h := (obs_db_query_temperatures_fold_in_closed_window OBS_DB_MAX_MODE
    [⟨3600, 50⟩] ⟨3600, 90000⟩ 0 24 [⟨86400, some 50⟩] (by simp) hres).1
    ⟨86400, some 50⟩ (by simp)
  exact (h.1 rfl).symm

/-- On a scan sorted by valid time, the precipitation walk runs the reducer
step over exactly the rows inside the closed window `[s, e]`. -/
theorem obs_precip_loop_value (s e : Int) :
    ∀ (l : List ObsPrecipitation) (st : PrecipAccumState) (d : Nat),
      List.Pairwise (fun a b => a.valid_time ≤ b.valid_time) l →
      (obs_precip_loop s e st d l).1 =
        List.foldl (fun st2 ob => obs_precip_step st2 (obs_tm_hour ob.valid_time)
            ob.precip_in) st
          (l.filter (fun ob => obs_in_window s e ob.valid_time)) := by
  intro l
  induction l with
  | nil =>
    intro st d _
    rfl
  | cons ob rest ih =>
    intro st d hp
    rcases List.pairwise_cons.1 hp with ⟨hob, hrest⟩
    rw [obs_precip_loop]
    by_cases h1 : ob.valid_time < s
    · rw [if_pos h1]
      have hf : obs_in_window s e ob.valid_time = false := by
        simp [obs_in_window]
        omega
      rw [ih _ _ hrest]
      simp [List.filter_cons, hf]
    · rw [if_neg h1]
      by_cases h2 : e < ob.valid_time
      · rw [if_pos h2]
        have hnil : (ob :: rest).filter
            (fun x => obs_in_window s e x.valid_time) = [] := by
          rw [List.filter_eq_nil_iff]
          intro x hx
          rcases List.mem_cons.1 hx with hx | hx
          · subst hx
            simp [obs_in_window]
            omega
          · have hxe := hob x hx
            simp [obs_in_window]
            omega
        rw [hnil]
        rfl
      · rw [if_neg h2]
        have hf : obs_in_window s e ob.valid_time = true := by
          simp [obs_in_window]
          omega
        rw [ih _ _ hrest]
        simp [List.filter_cons, hf]

/-- Claim C6: on an ascending scan, the precipitation reducer computes
exactly the claimed walk (trace flag for values strictly between 0 and
0.01; one contribution per UTC hour, keeping the last value of each hour;
final flush; 0.001 when only traces below 0.005 accumulated) over the
in-window rows. -/
theorem obs_db_query_precipitation_accumulation_matches_claim (s e : Int)
    (l : List ObsPrecipitation)
    (hsort : List.Pairwise (fun a b => a.valid_time ≤ b.valid_time) l) :
    (obs_db_query_precipitation_accumulation_in_window s e l).1 =
      obs_precip_claim_accum (l.filter (fun ob => obs_in_window s e ob.valid_time)) := by
  simp only [obs_db_query_precipitation_accumulation_in_window, obs_precip_claim_accum]
  exact congrArg obs_precip_finish (obs_precip_loop_value s e l obs_precip_init 0 hsort)

/-- Witness for claim C6 on the spec scenario S5: three reports at 12:00,
12:15 and 13:00 UTC inside the window `(11:00, 13:00]`. -/
theorem obs_db_query_precipitation_accumulation_matches_claim_witness :
    (obs_db_query_precipitation_accumulation_in_window (11 * 3600) (13 * 3600)
        [⟨12 * 3600, 1 / 10⟩, ⟨12 * 3600 + 900, 2 / 10⟩, ⟨13 * 3600, 5 / 100⟩]).1 =
      obs_precip_claim_accum
        (([⟨12 * 3600, 1 / 10⟩, ⟨12 * 3600 + 900, 2 / 10⟩, ⟨13 * 3600, 5 / 100⟩] :
          List ObsPrecipitation).filter (fun ob =>
            obs_in_window (11 * 3600) (13 * 3600) ob.valid_time)) :=
  obs_db_query_precipitation_accumulation_matches_claim (11 * 3600) (13 * 3600) _
    (by simp [List.pairwise_cons])

/-!
## Public query operations (obs_store.c)

`obs_store_query_t` and `obs_query_precipitation` first ask the inventory
analyzer about the scan range expanded backwards by the window lookback,
then run one `obs_download` per missing range, then query the local store.
The model abstracts the downloads into a single `downloadOk` flag (the
conjunction of the per-range outcomes, consulted only when the inventory
was incomplete) and takes the post-ingest hourly scan as an input; both are
exactly the data the C control flow branches on.  `scanRows` is the
ascending inventory scan of the expanded range.
-/

/-- Model of `obs_store_query_t` (obs_store.c lines 100-152). -/
def obs_store_query_t (mode : Int) (scanRows : List Int) (downloadOk : Bool)
    (hours : List ObsTemperature) (tr : ObsTimeRange)
    (window_end window_length : Nat) : TempQueryOut :=
  let need_hourlies_tr : ObsTimeRange := ⟨tr.start - HOURSEC * window_length, tr.stop⟩
  let inv := obs_db_have_inventory need_hourlies_tr scanRows
  if inv.1 = 0 ∧ downloadOk = false then ⟨-1, none, 0⟩
  else obs_db_query_temperatures mode hours tr window_end window_length

/-- Model of `obs_query_max_t` (obs_store.c lines 154-168). -/
def obs_query_max_t (scanRows : List Int) (downloadOk : Bool)
    (hours : List ObsTemperature) (tr : ObsTimeRange)
    (window_end window_length : Nat) : TempQueryOut :=
  obs_store_query_t OBS_DB_MAX_MODE scanRows downloadOk hours tr window_end
    window_length

/-- Model of `obs_query_min_t` (obs_store.c lines 170-184). -/
def obs_query_min_t (scanRows : List Int) (downloadOk : Bool)
    (hours : List ObsTemperature) (tr : ObsTimeRange)
    (window_end window_length : Nat) : TempQueryOut :=
  obs_store_query_t OBS_DB_MIN_MODE scanRows downloadOk hours tr window_end
    window_length

/-- Model of `obs_query_precipitation` (obs_store.c lines 186-238). -/
def obs_query_precipitation (scanRows : List Int) (downloadOk : Bool)
    (hours : List ObsPrecipitation) (tr : ObsTimeRange)
    (window_length window_increment : Nat) : PrecipQueryOut :=
  let need_hourlies_tr : ObsTimeRange := ⟨tr.start - HOURSEC * window_length, tr.stop⟩
  let inv := obs_db_have_inventory need_hourlies_tr scanRows
  if inv.1 = 0 ∧ downloadOk = false then ⟨-1, none, 0⟩
  else obs_db_query_precipitation hours tr window_length window_increment

/-- Claim C8: whenever a public query operation (max-t, min-t,
precipitation) returns a failure code, the caller's output pointer is left
null and the output count is left zero — no partial output accompanies a
failure. -/
theorem obs_query_failure_leaves_outputs_empty :
    (∀ (scanRows : List Int) (downloadOk : Bool) (hours : List ObsTemperature)
        (tr : ObsTimeRange) (window_end window_length : Nat),
      (obs_query_max_t scanRows downloadOk hours tr window_end window_length).rc < 0 →
        (obs_query_max_t scanRows downloadOk hours tr window_end
            window_length).results = none ∧
        (obs_query_max_t scanRows downloadOk hours tr window_end
            window_length).num_results = 0) ∧
    (∀ (scanRows : List Int) (downloadOk : Bool) (hours : List ObsTemperature)
        (tr : ObsTimeRange) (window_end window_length : Nat),
      (obs_query_min_t scanRows downloadOk hours tr window_end window_length).rc < 0 →
        (obs_query_min_t scanRows downloadOk hours tr window_end
            window_length).results = none ∧
        (obs_query_min_t scanRows downloadOk hours tr window_end
            window_length).num_results = 0) ∧
    (∀ (scanRows : List Int) (downloadOk : Bool) (hours : List ObsPrecipitation)
        (tr : ObsTimeRange) (window_length window_increment : Nat),
      (obs_query_precipitation scanRows downloadOk hours tr window_length
          window_increment).rc < 0 →
        (obs_query_precipitation scanRows downloadOk hours tr window_length
            window_increment).results = none ∧
        (obs_query_precipitation scanRows downloadOk hours tr window_length
            window_increment).num_results = 0) := by
  refine ⟨?_, ?_, ?_⟩
  · intro scanRows downloadOk hours tr window_end window_length hrc
    simp only [obs_query_max_t, obs_store_query_t] at hrc ⊢
    by_cases hc : (obs_db_have_inventory
        ⟨tr.start - HOURSEC * window_length, tr.stop⟩ scanRows).1 = 0 ∧
        downloadOk = false
    · rw [if_pos hc]
      exact ⟨rfl, rfl⟩
    · rw [if_neg hc] at hrc ⊢
      rw [obs_db_query_temperatures] at hrc ⊢
      rcases hcm : obs_db_query_calculate_num_results tr 24 with _ | cn
      · simp [hcm]
      · simp [hcm] at hrc
  · intro scanRows downloadOk hours tr window_end window_length hrc
    simp only [obs_query_min_t, obs_store_query_t] at hrc ⊢
    by_cases hc : (obs_db_have_inventory
        ⟨tr.start - HOURSEC * window_length, tr.stop⟩ scanRows).1 = 0 ∧
        downloadOk = false
    · rw [if_pos hc]
      exact ⟨rfl, rfl⟩
    · rw [if_neg hc] at hrc ⊢
      rw [obs_db_query_temperatures] at hrc ⊢
      rcases hcm : obs_db_query_calculate_num_results tr 24 with _ | cn
      · simp [hcm]
      · simp [hcm] at hrc
  · intro scanRows downloadOk hours tr window_length window_increment hrc
    simp only [obs_query_precipitation] at hrc ⊢
    by_cases hc : (obs_db_have_inventory
        ⟨tr.start - HOURSEC * window_length, tr.stop⟩ scanRows).1 = 0 ∧
        downloadOk = false
    · rw [if_pos hc]
      exact ⟨rfl, rfl⟩
    · rw [if_neg hc] at hrc ⊢
      rw [obs_db_query_precipitation] at hrc ⊢
      rcases hcm : obs_db_query_calculate_num_results tr window_increment with _ | cn
      · simp [hcm]
      · simp [hcm] at hrc

/-- Witness for claim C8: an empty cache with a failing download makes the
max-temperature query fail with a null output array and a zero count. -/
theorem obs_query_failure_leaves_outputs_empty_witness :
    (obs_query_max_t [] false [] ⟨0, 7200⟩ 0 1).results = none ∧
    (obs_query_max_t [] false [] ⟨0, 7200⟩ 0 1).num_results = 0 :=
  obs_query_failure_leaves_outputs_empty.1 [] false [] ⟨0, 7200⟩ 0 1 (by decide)

/-!
## CSV ingest pipeline (download.c)

The libcsv tokenizer delivers a stream of column callbacks and row
callbacks.  A delivered cell is abstracted by the outcomes of the
operations the callbacks apply to its text: whether libcsv passed NULL
(`CSV_EMPTY_IS_NULL` turns empty fields into NULL), whether the text starts
with a hash, which recognized header substring it contains, and the results
of `strtod` and of `strptime`/`timegm` on it.  Doubles are `ℚ` with `none`
for NaN, as elsewhere.  The store is the single-site row list seen by this
ingest run; `obs_db_insert` is the INSERT OR REPLACE upsert on the primary
key.  The whole run sits in one transaction: the state carries the
transaction's working view `db`, and finalize commits it or rolls back to
the pre-ingest rows depending on the error flag, exactly as
`obs_download_finalize_csv_state` does.
-/

/-- Which recognized header substring a header cell contains
(`col_callback_parse_col_header`, download.c lines 146-160). -/
inductive HeaderKind
  | dateTime
  | airTemp
  | precip
  | other
deriving DecidableEq, Repr

/-- Abstraction of one delivered CSV cell: the outcomes of every operation
the callbacks can apply to its text. -/
structure Cell where
  null : Bool
  hash : Bool
  hk : HeaderKind
  asDouble : Option ℚ
  asTime : Option Int
deriving DecidableEq, Repr

/-- One stored observation row of the run's site. -/
structure ObsRow where
  valid_time : Int
  t_f : ℚ
  precip_in_1hr : ℚ
deriving DecidableEq, Repr

/-- Model of `obs_db_insert` (obs_db.c lines 773-801): INSERT OR REPLACE on
the `(site, valid_time)` primary key, for the fixed site of the run. -/
def obs_db_insert (dbRows : List ObsRow) (r : ObsRow) : List ObsRow :=
  if dbRows.any (fun x => x.valid_time = r.valid_time) then
    dbRows.map (fun x => if x.valid_time = r.valid_time then r else x)
  else dbRows ++ [r]

/-- Model of `struct CsvToSqliteState` (download.c lines 21-37), with the
insert statement replaced by the transaction's working view of the table. -/
structure CsvToSqliteState where
  header_parsed : Bool
  col : Nat
  vt_col : Nat
  t_col : Nat
  p_col : Nat
  valid_time : Int
  t_f : Option ℚ
  p_in : Option ℚ
  error : Bool
  db : List ObsRow
deriving DecidableEq, Repr

/-- Model of `col_callback_parse_double` (download.c lines 81-100): the
value written to the state and whether the error flag is raised. -/
def col_callback_parse_double (c : Cell) : Option ℚ × Bool :=
  if c.null then (none, true)
  else
    match c.asDouble with
    | none => (none, true)
    | some v => (some v, false)

/-- Model of `col_callback_parse_double_missing_is_zero` (download.c lines
102-121): a NULL cell becomes 0.0 without error. -/
def col_callback_parse_double_missing_is_zero (c : Cell) : Option ℚ × Bool :=
  if c.null then (some 0, false)
  else
    match c.asDouble with
    | none => (none, true)
    | some v => (some v, false)

/-- Model of `col_callback_parse_valid_time` (download.c lines 123-144):
a NULL or unparseable cell raises the error flag and yields 0; a parsed
cell yields its `timegm` value, even when that value is 0. -/
def col_callback_parse_valid_time (c : Cell) : Int × Bool :=
  if c.null then (0, true)
  else
    match c.asTime with
    | none => (0, true)
    | some t => (t, false)

/-- Model of `col_callback_parse_col_header` (download.c lines 146-160). -/
def col_callback_parse_col_header (c : Cell) (st : CsvToSqliteState) :
    CsvToSqliteState :=
  if c.null then st
  else
    match c.hk with
    | .dateTime => { st with vt_col := st.col }
    | .airTemp => { st with t_col := st.col }
    | .precip => { st with p_col := st.col }
    | .other => st

/-- Model of `col_callback` (download.c lines 162-188): an already failed
row or a hash cell sets the error flag without advancing the column;
otherwise header cells bind column indices, data cells parse into the
pending row (the valid-time column is checked first), and the column
advances. -/
def col_callback (c : Cell) (st : CsvToSqliteState) : CsvToSqliteState :=
  if st.error ∨ (¬ c.null ∧ c.hash) then { st with error := true }
  else
    let st1 :=
      if ¬ st.header_parsed then col_callback_parse_col_header c st
      else if st.col = st.vt_col then
        { st with
            valid_time := (col_callback_parse_valid_time c).1
            error := st.error ∨ (col_callback_parse_valid_time c).2 }
      else if st.col = st.t_col then
        { st with
            t_f := (col_callback_parse_double c).1
            error := st.error ∨ (col_callback_parse_double c).2 }
      else if st.col = st.p_col then
        { st with
            p_in := (col_callback_parse_double_missing_is_zero c).1
            error := st.error ∨ (col_callback_parse_double_missing_is_zero c).2 }
      else st
    { st1 with col := st1.col + 1 }

/-- Model of `row_callback_is_error_condition` (download.c lines 190-194):
the error flag, a NaN temperature, a NaN precipitation, or the zero
valid-time sentinel make the pending row invalid. -/
def row_callback_is_error_condition (st : CsvToSqliteState) : Prop :=
  st.error = true ∨ st.t_f = none ∨ st.p_in = none ∨ st.valid_time = 0

instance (st : CsvToSqliteState) : Decidable (row_callback_is_error_condition st) := by
  unfold row_callback_is_error_condition
  infer_instance

/-- Model of `row_callback` (download.c lines 196-218): the first clean row
end marks the header as parsed; later row ends insert the pending row
unless it is invalid; either way the per-row state is reset. -/
def row_callback (st : CsvToSqliteState) : CsvToSqliteState :=
  let st1 :=
    if ¬ st.header_parsed ∧ ¬ st.error then { st with header_parsed := true }
    else if ¬ row_callback_is_error_condition st then
      { st with db := obs_db_insert st.db ⟨st.valid_time, st.t_f.getD 0, st.p_in.getD 0⟩ }
    else st
  { st1 with col := 0, valid_time := 0, t_f := none, p_in := none, error := false }

/-- One event of the libcsv callback stream. -/
inductive CsvEvent
  | col (c : Cell)
  | row
deriving DecidableEq, Repr

/-- Dispatch of one callback event. -/
def obs_csv_event (st : CsvToSqliteState) : CsvEvent → CsvToSqliteState
  | .col c => col_callback c st
  | .row => row_callback st

/-- Model of `obs_download_init_csv_state` (download.c lines 39-63): the
transaction is opened before any byte is parsed, so the working view starts
at the pre-ingest rows; all per-row fields start clear. -/
def obs_download_init_csv_state (base : List ObsRow) : CsvToSqliteState :=
  ⟨false, 0, 0, 0, 0, 0, none, none, false, base⟩

/-- The parser state after feeding the delivered callback stream to the
callbacks, starting inside the freshly opened transaction. -/
def obs_download_run_csv (base : List ObsRow) (events : List CsvEvent) :
    CsvToSqliteState :=
  events.foldl obs_csv_event (obs_download_init_csv_state base)

/-- Model of `obs_download_finalize_csv_state` (download.c lines 65-79):
commit the working view unless the error flag survived to stream end, in
which case roll back to the pre-ingest rows. -/
def obs_download_finalize_csv_state (base : List ObsRow)
    (st : CsvToSqliteState) : List ObsRow :=
  if st.error then base else st.db

/-- Model of `obs_download` (download.c lines 341-378): the committed store
and the return code.  `events` is the callback stream the tokenizer
delivered before the transfer ended; `transferOk` tells whether
`curl_easy_perform` (and the preceding setup) succeeded, which decides the
return code but is never consulted by the finalize step. -/
def obs_download (base : List ObsRow) (events : List CsvEvent)
    (transferOk : Bool) : List ObsRow × Int :=
  (obs_download_finalize_csv_state base (obs_download_run_csv base events),
    if transferOk then 0 else -1)

/-- Model of `obs_db_count_rows_in_range` (obs_db.c lines 143-178) for the
run's site. -/
def obs_db_count_rows_in_range (rows : List ObsRow) (tr : ObsTimeRange) : Nat :=
  (rows.filter (fun r => decide (tr.containsTime r.valid_time))).length

/-- The callback stream of a small successful partial download: a header
row binding the three recognized columns, then one valid data row at
valid time 3600 with temperature 70 and a NULL (hence 0.0) precipitation. -/
def obs_download_demo_events : List CsvEvent :=
  [CsvEvent.col ⟨false, false, HeaderKind.dateTime, none, none⟩,
   CsvEvent.col ⟨false, false, HeaderKind.airTemp, none, none⟩,
   CsvEvent.col ⟨false, false, HeaderKind.precip, none, none⟩,
   CsvEvent.row,
   CsvEvent.col ⟨false, false, HeaderKind.other, none, some 3600⟩,
   CsvEvent.col ⟨false, false, HeaderKind.other, some 70, none⟩,
   CsvEvent.col ⟨true, false, HeaderKind.other, none, none⟩,
   CsvEvent.row]

/-- Claim C1, counterexample: a run whose transfer fails after the header
and one valid data row were parsed (so `obs_download` returns the failure
code) still commits the row inserted before the failure: the post-run row
count over `[0, 7200]` is 1, not the pre-ingest 0.  The transaction is not
rolled back, because the per-row reset in `row_callback` clears the error
flag, so it is false when the stream ends. -/
theorem obs_download_failed_run_commits_counterexample :
    (obs_download [] obs_download_demo_events false).2 < 0 ∧
    obs_db_count_rows_in_range (obs_download [] obs_download_demo_events false).1
      ⟨0, 7200⟩ = 1 ∧
    obs_db_count_rows_in_range ([] : List ObsRow) ⟨0, 7200⟩ = 0 := by
  refine ⟨by decide, by decide, by decide⟩

/-- Claim C1 (amended): every ingest run executes inside a single
transaction opened before any CSV bytes are parsed, so the committed store
is either the pre-ingest rows or the full transaction view, never an
intermediate state; the commit/rollback decision depends only on the parser
error flag at stream end, never on the transfer outcome (which decides only
the return code), so a run whose transfer fails mid-stream after clean rows
still commits those rows, and rollback to the pre-ingest row counts happens
exactly when the error flag survives to stream end; a run reaching clean
stream end commits. -/
theorem obs_download_single_transaction (base : List ObsRow)
    (events : List CsvEvent) (transferOk : Bool) :
    ((obs_download base events transferOk).1 = base ∨
      (obs_download base events transferOk).1 =
        (obs_download_run_csv base events).db) ∧
    (obs_download base events transferOk).1 = (obs_download base events true).1 ∧
    ((obs_download_run_csv base events).error = true →
      (obs_download base events transferOk).1 = base) ∧
    ((obs_download_run_csv base events).error = false →
      (obs_download base events transferOk).1 =
        (obs_download_run_csv base events).db) ∧
    ((obs_download base events transferOk).2 < 0 ↔ transferOk = false) := by
  refine ⟨?_, rfl, ?_, ?_, ?_⟩
  · rw [obs_download]
    simp only [obs_download_finalize_csv_state]
    by_cases h : (obs_download_run_csv base events).error
    · rw [if_pos h]
      exact Or.inl rfl
    · rw [if_neg h]
      exact Or.inr rfl
  · intro h
    rw [obs_download]
    simp only [obs_download_finalize_csv_state, h]
    rfl
  · intro h
    rw [obs_download]
    simp only [obs_download_finalize_csv_state, h]
    rfl
  · cases transferOk <;> simp [obs_download]

/-- Witness for the amended claim C1: the demo stream commits its one row
whether or not the transfer is reported failed. -/
theorem obs_download_single_transaction_witness :
    (obs_download [] obs_download_demo_events false).1 =
      (obs_download_run_csv [] obs_download_demo_events).db :=
  (obs_download_single_transaction [] obs_download_demo_events false).2.2.2.1
    (by decide)

/-- Column callbacks never touch the transaction view. -/
theorem col_callback_preserves_db (c : Cell) (st : CsvToSqliteState) :
    (col_callback c st).db = st.db := by
  unfold col_callback col_callback_parse_col_header
  repeat' split
  all_goals rfl

/-- A data row whose valid time parsed to the zero sentinel (or whose error
flag is set) stays invalid through the rest of its cells: the header is
parsed, the column counter has moved past the valid-time column, and the
sentinel or the error flag persists. -/
def obs_row_poisoned (st : CsvToSqliteState) : Prop :=
  st.header_parsed = true ∧ st.vt_col < st.col ∧
    (st.valid_time = 0 ∨ st.error = true)

/-- One column callback preserves the poisoned-row invariant. -/
theorem col_callback_preserves_poisoned (c : Cell) (st : CsvToSqliteState)
    (h : obs_row_poisoned st) : obs_row_poisoned (col_callback c st) := by
  rcases h with ⟨hp, hcol, hval⟩
  rw [col_callback]
  by_cases h1 : st.error = true ∨ (¬ c.null = true ∧ c.hash = true)
  · rw [if_pos h1]
    exact ⟨hp, hcol, Or.inr rfl⟩
  · rw [if_neg h1]
    have herr : ¬ st.error = true := fun he => h1 (Or.inl he)
    have hv0 : st.valid_time = 0 := hval.resolve_right herr
    simp only []
    rw [if_neg (by simp [hp])]
    rw [if_neg (by omega : ¬ st.col = st.vt_col)]
    by_cases h2 : st.col = st.t_col
    · rw [if_pos h2]
      exact ⟨by simp [hp], by simp; omega, Or.inl (by simp [hv0])⟩
    · rw [if_neg h2]
      by_cases h3 : st.col = st.p_col
      · rw [if_pos h3]
        exact ⟨by simp [hp], by simp; omega, Or.inl (by simp [hv0])⟩
      · rw [if_neg h3]
        exact ⟨by simp [hp], by simp; omega, Or.inl (by simp [hv0])⟩

/-- Folding any remaining cells preserves the poisoned-row invariant. -/
theorem col_callbacks_preserve_poisoned (cs : List Cell) :
    ∀ st, obs_row_poisoned st →
      obs_row_poisoned (cs.foldl (fun s c => col_callback c s) st) := by
  induction cs with
  | nil => exact fun st h => h
  | cons c cs ih => exact fun st h => ih _ (col_callback_preserves_poisoned c st h)

/-- Folding cells never touches the transaction view. -/
theorem col_callbacks_preserve_db (cs : List Cell) :
    ∀ st, (cs.foldl (fun s c => col_callback c s) st).db = st.db := by
  induction cs with
  | nil => exact fun st => rfl
  | cons c cs ih =>
    intro st
    rw [List.foldl_cons, ih, col_callback_preserves_db]

/-- The row callback inserts nothing from a poisoned row. -/
theorem row_callback_poisoned_no_insert (st : CsvToSqliteState)
    (h : obs_row_poisoned st) : (row_callback st).db = st.db := by
  rcases h with ⟨hp, _, hval⟩
  have hcond : row_callback_is_error_condition st := by
    unfold row_callback_is_error_condition
    rcases hval with h | h
    · exact Or.inr (Or.inr (Or.inr h))
    · exact Or.inl h
  rw [row_callback]
  simp only []
  rw [if_neg (by simp [hp])]
  rw [if_neg (not_not_intro hcond)]

/-- Claim C10: a data row whose Date_Time cell parses successfully to
exactly Unix epoch second 0 is treated as invalid: after its remaining
cells and the row callback, the transaction view is unchanged, because the
zero valid time is the parse-error sentinel checked by
`row_callback_is_error_condition`. -/
theorem obs_ingest_epoch_zero_row_not_inserted (st : CsvToSqliteState)
    (c : Cell) (rest : List Cell)
    (hhp : st.header_parsed = true) (herr : st.error = false)
    (hcol : st.col = st.vt_col)
    (hnull : c.null = false) (hhash : c.hash = false)
    (htime : c.asTime = some 0) :
    (row_callback (rest.foldl (fun s x => col_callback x s)
      (col_callback c st))).db = st.db := by
  have hparse : col_callback_parse_valid_time c = (0, false) := by
    rw [col_callback_parse_valid_time, if_neg (by simp [hnull]), htime]
  have hstep : obs_row_poisoned (col_callback c st) := by
    rw [col_callback]
    rw [if_neg (by simp [herr, hnull, hhash])]
    simp only []
    rw [if_neg (by simp [hhp])]
    rw [if_pos hcol, hparse]
    exact ⟨by simp [hhp], by simp [hcol], Or.inl (by simp)⟩
  have hfold := col_callbacks_preserve_poisoned rest _ hstep
  rw [row_callback_poisoned_no_insert _ hfold]
  rw [col_callbacks_preserve_db]
  exact col_callback_preserves_db c st

/-- Witness for claim C10: a concrete mid-stream state whose next data row
carries a Date_Time cell parsing to epoch 0 inserts nothing. -/
theorem obs_ingest_epoch_zero_row_not_inserted_witness :
    (row_callback (([⟨false, false, HeaderKind.other, some 70, none⟩,
        ⟨true, false, HeaderKind.other, none, none⟩] : List Cell).foldl
      (fun s x => col_callback x s)
      (col_callback ⟨false, false, HeaderKind.other, none, some 0⟩
        ⟨true, 0, 0, 1, 2, 0, none, none, false, []⟩))).db = [] :=
  obs_ingest_epoch_zero_row_not_inserted ⟨true, 0, 0, 1, 2, 0, none, none, false, []⟩
    ⟨false, false, HeaderKind.other, none, some 0⟩
    [⟨false, false, HeaderKind.other, some 70, none⟩,
      ⟨true, false, HeaderKind.other, none, none⟩]
    rfl rfl rfl rfl rfl rfl
